import Mathlib

/-!
Shallow embedding of the GDI 3D renderer's transform-and-rasterize core
(src/KDZ/Matrix.cpp and src/KDZ/Renderer.cpp), with theorems checking the
specification's claims about it.  Float arithmetic is modelled by real
arithmetic; C++ float-to-int conversion is modelled by truncation toward
zero; the depth buffer's -INFINITY clear value is modelled by `⊥ : WithBot ℝ`.
-/

noncomputable section

namespace KDZ

/-- Modelled from the spec: `Vector3` (an ordered triple of floating-point
components), from the repository's vector header which is not under src/. -/
structure Vector3 where
  x : ℝ
  y : ℝ
  z : ℝ

/-- Modelled from the spec: `Vector4` (x, y, z, w components). -/
structure Vector4 where
  x : ℝ
  y : ℝ
  z : ℝ
  w : ℝ

/-- Modelled from the spec: componentwise vector addition. -/
def Vector3.add (a b : Vector3) : Vector3 :=
  ⟨a.x + b.x, a.y + b.y, a.z + b.z⟩

/-- Modelled from the spec: componentwise vector subtraction. -/
def Vector3.sub (a b : Vector3) : Vector3 :=
  ⟨a.x - b.x, a.y - b.y, a.z - b.z⟩

/-- Modelled from the spec: scalar multiplication. -/
def Vector3.smul (a : Vector3) (k : ℝ) : Vector3 :=
  ⟨a.x * k, a.y * k, a.z * k⟩

/-- Modelled from the spec: dot product. -/
def Vector3.dot (a b : Vector3) : ℝ :=
  a.x * b.x + a.y * b.y + a.z * b.z

/-- Modelled from the spec: cross product. -/
def Vector3.cross (a b : Vector3) : Vector3 :=
  ⟨a.y * b.z - a.z * b.y, a.z * b.x - a.x * b.z, a.x * b.y - a.y * b.x⟩

/-- Modelled from the spec: Euclidean magnitude (`len`). -/
def Vector3.len (a : Vector3) : ℝ :=
  Real.sqrt (a.dot a)

/-- Modelled from the spec: `normalized()` divides each component by the
magnitude. -/
def Vector3.normalized (a : Vector3) : Vector3 :=
  ⟨a.x / a.len, a.y / a.len, a.z / a.len⟩

/-- Modelled from the spec: homogeneous divide, `Vector4 → Vector3` dividing
x, y, z by w. -/
def Vector4.fromHomogeneous (v : Vector4) : Vector3 :=
  ⟨v.x / v.w, v.y / v.w, v.z / v.w⟩

/-- Modelled from the spec: `Matrix4`, a 4×4 grid of floats, row-major
indexed by (row, column). -/
def Matrix4 : Type := Fin 4 → Fin 4 → ℝ

/-- Modelled from the spec: the default `Matrix4` value is the identity. -/
def Matrix4.identity : Matrix4 := fun i j => if i = j then 1 else 0

/-- Modelled from the spec: `set(r, c, v)` (returning the updated matrix, as
the value-semantics view of the in-place mutation). -/
def Matrix4.set (m : Matrix4) (r c : Fin 4) (v : ℝ) : Matrix4 :=
  fun i j => if i = r ∧ j = c then v else m i j

/-- Modelled from the spec: standard matrix × matrix multiplication. -/
def Matrix4.mul (a b : Matrix4) : Matrix4 :=
  fun i j => ∑ k : Fin 4, a i k * b k j

/-- Modelled from the spec: matrix × Vector4 multiplication. -/
def Matrix4.mulVec (m : Matrix4) (v : Vector4) : Vector4 :=
  ⟨m 0 0 * v.x + m 0 1 * v.y + m 0 2 * v.z + m 0 3 * v.w,
   m 1 0 * v.x + m 1 1 * v.y + m 1 2 * v.z + m 1 3 * v.w,
   m 2 0 * v.x + m 2 1 * v.y + m 2 2 * v.z + m 2 3 * v.w,
   m 3 0 * v.x + m 3 1 * v.y + m 3 2 * v.z + m 3 3 * v.w⟩

/-- Modelled from the spec: construction from a flat 16-element sequence in
row-major order. -/
def Matrix4.ofSixteen (m00 m01 m02 m03 m10 m11 m12 m13
    m20 m21 m22 m23 m30 m31 m32 m33 : ℝ) : Matrix4 :=
  fun r c =>
    if r = 0 then (if c = 0 then m00 else if c = 1 then m01 else if c = 2 then m02 else m03)
    else if r = 1 then (if c = 0 then m10 else if c = 1 then m11 else if c = 2 then m12 else m13)
    else if r = 2 then (if c = 0 then m20 else if c = 1 then m21 else if c = 2 then m22 else m23)
    else (if c = 0 then m30 else if c = 1 then m31 else if c = 2 then m32 else m33)

namespace Util

/-- `degToRad` from Matrix.cpp: converts degrees to radians. -/
def degToRad (degrees : ℝ) : ℝ :=
  degrees * Real.pi / 180

/-- `translate` from Matrix.cpp. -/
def translate (mat : Matrix4) (move : Vector3) : Matrix4 :=
  let translationMatrix :=
    ((Matrix4.identity.set 0 3 move.x).set 1 3 move.y).set 2 3 move.z
  translationMatrix.mul mat

/-- `rotateX` from Matrix.cpp. -/
def rotateX (mat : Matrix4) (degrees : ℝ) : Matrix4 :=
  let angle := degToRad degrees
  let rotationMatrix :=
    (((Matrix4.identity.set 1 1 (Real.cos angle)).set 2 1 (-Real.sin angle)).set
      1 2 (Real.sin angle)).set 2 2 (Real.cos angle)
  rotationMatrix.mul mat

/-- `rotateY` from Matrix.cpp. -/
def rotateY (mat : Matrix4) (degrees : ℝ) : Matrix4 :=
  let angle := degToRad degrees
  let rotationMatrix :=
    (((Matrix4.identity.set 0 0 (Real.cos angle)).set 0 2 (Real.sin angle)).set
      2 0 (-Real.sin angle)).set 2 2 (Real.cos angle)
  rotationMatrix.mul mat

/-- `rotateZ` from Matrix.cpp. -/
def rotateZ (mat : Matrix4) (degrees : ℝ) : Matrix4 :=
  let angle := degToRad degrees
  let rotationMatrix :=
    (((Matrix4.identity.set 0 0 (Real.cos angle)).set 0 1 (-Real.sin angle)).set
      1 0 (Real.sin angle)).set 1 1 (Real.cos angle)
  rotationMatrix.mul mat

/-- `scale` from Matrix.cpp. -/
def scale (mat : Matrix4) (magnitude : Vector3) : Matrix4 :=
  let scaleMatrix :=
    ((Matrix4.identity.set 0 0 magnitude.x).set 1 1 magnitude.y).set 2 2 magnitude.z
  scaleMatrix.mul mat

/-- `lookAt` from Matrix.cpp. -/
def lookAt (position target up : Vector3) : Matrix4 :=
  let direction := (position.sub target).normalized
  let cameraRight := ((up.normalized).cross direction).normalized
  let cameraUp := direction.cross cameraRight
  let rotational := Matrix4.ofSixteen
    cameraRight.x cameraRight.y cameraRight.z 0
    cameraUp.x cameraUp.y cameraUp.z 0
    direction.x direction.y direction.z 0
    0 0 0 1
  let positional := Matrix4.ofSixteen
    1 0 0 (-position.x)
    0 1 0 (-position.y)
    0 0 1 (-position.z)
    0 0 0 1
  rotational.mul positional

/-- `perspective` from Matrix.cpp. -/
def perspective (fov aspect near far : ℝ) : Matrix4 :=
  let top := near * Real.tan (degToRad fov / 2)
  let bottom := -top
  let right := top * aspect
  let left := -right
  ((((((Matrix4.identity.set 0 0 (2 * near / (right - left))).set
      0 2 ((right + left) / (right - left))).set
      1 1 (2 * near / (top - bottom))).set
      2 2 (-(far + near) / (far - near))).set
      3 3 0).set
      2 3 (-2 * far * near / (far - near))).set
      3 2 (-1)

/-- `orthographic` from Matrix.cpp. -/
def orthographic (top right near far : ℝ) : Matrix4 :=
  let left := -right
  let bottom := -top
  (((((Matrix4.identity.set 0 0 (2 / (right - left))).set
      1 1 (2 / (top - bottom))).set
      2 2 (-2 / (far - near))).set
      0 3 (-(right + left) / (right - left))).set
      1 3 (-(top + bottom) / (top - bottom))).set
      2 3 (-(far + near) / (far - near))

/-- The denominator `d00 * d11 - d01 * d01` of the barycentric solve in
Matrix.cpp (named here so theorems can refer to it). -/
def baryDenom (a b c : Vector3) : ℝ :=
  let v0 := b.sub a
  let v1 := c.sub a
  (v0.dot v0) * (v1.dot v1) - (v0.dot v1) * (v0.dot v1)

/-- `barycentric` from Matrix.cpp. -/
def barycentric (p a b c : Vector3) : Vector3 :=
  let v0 := b.sub a
  let v1 := c.sub a
  let v2 := p.sub a
  let d00 := v0.dot v0
  let d01 := v0.dot v1
  let d11 := v1.dot v1
  let d20 := v2.dot v0
  let d21 := v2.dot v1
  let denom := d00 * d11 - d01 * d01
  let v := (d11 * d20 - d01 * d21) / denom
  let w := (d00 * d21 - d01 * d20) / denom
  let u := 1 - v - w
  ⟨u, v, w⟩

/-- The rotation-block pattern the specification asserts for `rotateX`:
entries (1,1)=cos, (2,1)=-sin, (1,2)=sin, (2,2)=cos of the angle
`degrees * π / 180`, identity elsewhere.  Stated from the spec's words, for
comparison with the source `rotateX`. -/
def claimedRotX (d : ℝ) : Matrix4 := fun i j =>
  if i = 1 ∧ j = 1 then Real.cos (d * Real.pi / 180)
  else if i = 2 ∧ j = 1 then -Real.sin (d * Real.pi / 180)
  else if i = 1 ∧ j = 2 then Real.sin (d * Real.pi / 180)
  else if i = 2 ∧ j = 2 then Real.cos (d * Real.pi / 180)
  else if i = j then 1 else 0

/-- The pattern the specification asserts for `rotateY` (axis pair 0,2):
(0,0)=cos, (2,0)=-sin, (0,2)=sin, (2,2)=cos. -/
def claimedRotY (d : ℝ) : Matrix4 := fun i j =>
  if i = 0 ∧ j = 0 then Real.cos (d * Real.pi / 180)
  else if i = 2 ∧ j = 0 then -Real.sin (d * Real.pi / 180)
  else if i = 0 ∧ j = 2 then Real.sin (d * Real.pi / 180)
  else if i = 2 ∧ j = 2 then Real.cos (d * Real.pi / 180)
  else if i = j then 1 else 0

/-- The pattern the specification asserts for `rotateZ` (axis pair 0,1):
(0,0)=cos, (1,0)=-sin, (0,1)=sin, (1,1)=cos. -/
def claimedRotZ (d : ℝ) : Matrix4 := fun i j =>
  if i = 0 ∧ j = 0 then Real.cos (d * Real.pi / 180)
  else if i = 1 ∧ j = 0 then -Real.sin (d * Real.pi / 180)
  else if i = 0 ∧ j = 1 then Real.sin (d * Real.pi / 180)
  else if i = 1 ∧ j = 1 then Real.cos (d * Real.pi / 180)
  else if i = j then 1 else 0

/-- The rotation block `rotateZ` actually builds (axis pair 0,1 with the
sine signs transposed relative to the X/Y pattern): (0,0)=cos, (0,1)=-sin,
(1,0)=sin, (1,1)=cos. -/
def sourceRotZ (d : ℝ) : Matrix4 := fun i j =>
  if i = 0 ∧ j = 0 then Real.cos (d * Real.pi / 180)
  else if i = 0 ∧ j = 1 then -Real.sin (d * Real.pi / 180)
  else if i = 1 ∧ j = 0 then Real.sin (d * Real.pi / 180)
  else if i = 1 ∧ j = 1 then Real.cos (d * Real.pi / 180)
  else if i = j then 1 else 0

end Util

/-- Truncation toward zero: the C++ float-to-int conversion used whenever
Renderer.cpp assigns a float expression to an int. -/
def trunc (r : ℝ) : ℤ := if 0 ≤ r then ⌊r⌋ else ⌈r⌉

/-- `sign` from Renderer.cpp: `(x > 0) - (x < 0)`. -/
def sign (x : ℤ) : ℤ := (if 0 < x then 1 else 0) - (if x < 0 then 1 else 0)

/-- Renderer state: the per-pixel depth cells (the -INFINITY clear value is
`⊥ : WithBot ℝ`) and the pixels drawn so far (brushes are opaque tokens). -/
structure RState where
  zbuf : ℤ → ℤ → WithBot ℝ
  col : ℤ → ℤ → Option ℕ

/-- The renderer state right after `clearZBuffer` and a cleared canvas. -/
def clearedState : RState := ⟨fun _ _ => ⊥, fun _ _ => none⟩

/-- `drawPoint` from Renderer.cpp: bounds test `x > 0 && x < viewportX && y >
0 && y < viewportY`, depth test `1/z > zbuffer[x,y]`, then cell update and
pixel draw; otherwise no change. -/
def drawPoint (viewportX viewportY : ℤ) (st : RState) (x y : ℤ) (z : ℝ)
    (br : ℕ) : RState :=
  if 0 < x ∧ x < viewportX ∧ 0 < y ∧ y < viewportY then
    if ((1 / z : ℝ) : WithBot ℝ) > st.zbuf x y then
      { zbuf := fun a b => if a = x ∧ b = y then ((1 / z : ℝ) : WithBot ℝ) else st.zbuf a b,
        col := fun a b => if a = x ∧ b = y then some br else st.col a b }
    else st
  else st

/-- One pixel submitted to the depth test: position, depth, brush. -/
structure Submission where
  px : ℤ
  py : ℤ
  pz : ℝ
  pbr : ℕ

/-- Folding a list of submissions through `drawPoint`. -/
def renderList (w h : ℤ) (st : RState) (l : List Submission) : RState :=
  l.foldl (fun s sub => drawPoint w h s sub.px sub.py sub.pz sub.pbr) st

/-- The inner error-correction while-loop of `drawLine` (steps the secondary
axis while `e >= 0`, subtracting `2*dx` each pass).  The source only reaches
this loop in iterations where `dx ≥ 1`; the guard makes that explicit so the
recursion terminates. -/
def bresenhamCorrect (isSwap : Bool) (sx sy dx : ℤ) (x y e : ℤ) : ℤ × ℤ × ℤ :=
  if 0 ≤ e ∧ 0 < dx then
    bresenhamCorrect isSwap sx sy dx (if isSwap then x + sx else x)
      (if isSwap then y else y + sy) (e - 2 * dx)
  else (x, y, e)
termination_by (e + 1).toNat
decreasing_by omega

/-- The main loop of `drawLine` (`for i = 1; i <= dx`), recursing on the
number of remaining iterations and emitting the submission of each visited
pixel: depth from the Euclidean x,y-distance ratio, then error correction
and the primary-axis step. -/
def lineLoop (isSwap : Bool) (sx sy dx dy : ℤ) (f t : Vector3) (br : ℕ) :
    ℕ → ℤ → ℤ → ℤ → List Submission
  | 0, _, _, _ => []
  | n + 1, x, y, e =>
    let tt := ((Vector3.mk (x : ℝ) (y : ℝ) 0).sub ⟨f.x, f.y, 0⟩).len /
      ((Vector3.mk t.x t.y 0).sub ⟨f.x, f.y, 0⟩).len
    let z := (1 - tt) * f.z + tt * t.z
    let c := bresenhamCorrect isSwap sx sy dx x y e
    ⟨x, y, z, br⟩ ::
      lineLoop isSwap sx sy dx dy f t br n
        (if isSwap then c.1 else c.1 + sx)
        (if isSwap then c.2.1 + sy else c.2.1)
        (c.2.2 + 2 * dy)

/-- The pixels `drawLine` from Renderer.cpp submits to the depth test, in
order. -/
def drawLineSubs (f t : Vector3) (br : ℕ) : List Submission :=
  let x := trunc f.x
  let y := trunc f.y
  let dx0 := trunc |t.x - (x : ℝ)|
  let dy0 := trunc |t.y - (y : ℝ)|
  let sx := sign (trunc (t.x - (x : ℝ)))
  let sy := sign (trunc (t.y - (y : ℝ)))
  let isSwap := decide (dx0 < dy0)
  let dx := if isSwap then dy0 else dx0
  let dy := if isSwap then dx0 else dy0
  lineLoop isSwap sx sy dx dy f t br dx.toNat x y (2 * dy - dx)

/-- `drawLine` from Renderer.cpp acting on the renderer state. -/
def drawLine (w h : ℤ) (st : RState) (f t : Vector3) (br : ℕ) : RState :=
  renderList w h st (drawLineSubs f t br)

/-- The vertex-sorting prologue of `fillPolygon`: the three pairwise swaps
by ascending y, in source order. -/
def sortTri (a b c : Vector3) : Vector3 × Vector3 × Vector3 :=
  let f1 := if a.y > b.y then b else a
  let s1 := if a.y > b.y then a else b
  let f2 := if f1.y > c.y then c else f1
  let t2 := if f1.y > c.y then f1 else c
  let s3 := if s1.y > t2.y then t2 else s1
  let t3 := if s1.y > t2.y then s1 else t2
  (f2, s3, t3)

/-- The scanline indices `fillPolygon` visits: `i` from 0 while
`i < totalHeight` (empty when the degenerate-triangle guard fires). -/
def scanIndices (vf vs vt : Vector3) : List ℤ :=
  if vf.y = vs.y ∧ vf.y = vt.y then [] else
  let srt := sortTri vf vs vt
  (List.range (trunc (srt.2.2.y - srt.1.y)).toNat).map (fun (n : ℕ) => (n : ℤ))

/-- `j` from `lo` while `j ≤ hi`, over the integers. -/
def intsFromTo (lo hi : ℤ) : List ℤ :=
  (List.range (hi + 1 - lo).toNat).map (fun (n : ℕ) => lo + (n : ℤ))

/-- The x-range of scanline `i` of `fillPolygon`: boundary points A and B
from the alpha/beta interpolation, reordered by x, then `j = A.x` while
`j <= B.x`. -/
def fillRowJs (first second third : Vector3) (i : ℤ) : List ℤ :=
  let totalHeight := trunc (third.y - first.y)
  let secondHalf : Prop := ((i : ℝ) > second.y - first.y) ∨ second.y = first.y
  let segmentHeight : ℤ :=
    if secondHalf then trunc (third.y - second.y) else trunc (second.y - first.y)
  let alpha : ℝ := (i : ℝ) / (totalHeight : ℝ)
  let beta : ℝ := ((i : ℝ) - (if secondHalf then second.y - first.y else 0)) /
    (segmentHeight : ℝ)
  let A := first.add ((third.sub first).smul alpha)
  let B := if secondHalf then second.add ((third.sub second).smul beta)
    else first.add ((second.sub first).smul beta)
  let A2 := if A.x > B.x then B else A
  let B2 := if A.x > B.x then A else B
  intsFromTo (trunc A2.x) ⌊B2.x⌋

/-- The interpolated depth `fillPolygon` computes for pixel
`(j, first.y + i)`: barycentric weights of `(j, first.y + i, 0)` against the
original (pre-sort) vertices, dotted with the sorted vertices' z values. -/
def fillDepth (vf vs vt first second third : Vector3) (i j : ℤ) : ℝ :=
  (Util.barycentric ⟨(j : ℝ), first.y + (i : ℝ), 0⟩ vf vs vt).dot
    ⟨first.z, second.z, third.z⟩

/-- The pixels `fillPolygon` from Renderer.cpp submits to the depth test, in
order. -/
def fillPolygonSubs (vf vs vt : Vector3) (br : ℕ) : List Submission :=
  if vf.y = vs.y ∧ vf.y = vt.y then [] else
  let srt := sortTri vf vs vt
  let first := srt.1
  let second := srt.2.1
  let third := srt.2.2
  (List.range (trunc (third.y - first.y)).toNat).flatMap (fun (iN : ℕ) =>
    (fillRowJs first second third (iN : ℤ)).map (fun j =>
      ⟨j, trunc (first.y + (iN : ℝ)),
        fillDepth vf vs vt first second third (iN : ℤ) j, br⟩))

/-- `fillPolygon` from Renderer.cpp acting on the renderer state (the
`normal` parameter is unused by the source body). -/
def fillPolygon (w h : ℤ) (st : RState) (vf vs vt : Vector3) (br : ℕ) : RState :=
  renderList w h st (fillPolygonSubs vf vs vt br)

/-- The per-cell view of one depth-test step: the test-and-set `drawPoint`
performs on the single cell it touches (stored depth, stored color). -/
def cellStep (c : WithBot ℝ × Option ℕ) (s : Submission) : WithBot ℝ × Option ℕ :=
  if ((1 / s.pz : ℝ) : WithBot ℝ) > c.1 then (((1 / s.pz : ℝ) : WithBot ℝ), some s.pbr)
  else c

/-- The cell of the renderer state at one pixel. -/
def cellOf (st : RState) (x y : ℤ) : WithBot ℝ × Option ℕ :=
  (st.zbuf x y, st.col x y)

/-- `drawPoint`'s bounds test as a predicate on submissions. -/
def inBounds (w h : ℤ) (s : Submission) : Prop :=
  0 < s.px ∧ s.px < w ∧ 0 < s.py ∧ s.py < h

instance (w h : ℤ) (s : Submission) : Decidable (inBounds w h s) := by
  unfold inBounds
  infer_instance

/-- The centroid of a triangle (the spec's barycentric test point). -/
def centroid (a b c : Vector3) : Vector3 :=
  ⟨(a.x + b.x + c.x) / 3, (a.y + b.y + c.y) / 3, (a.z + b.z + c.z) / 3⟩

/-- The 2D (x,y-only) barycentric weights that C10 compares against: the
same solve with every z component dropped. -/
def barycentric2D (p a b c : Vector3) : Vector3 :=
  Util.barycentric ⟨p.x, p.y, 0⟩ ⟨a.x, a.y, 0⟩ ⟨b.x, b.y, 0⟩ ⟨c.x, c.y, 0⟩

end KDZ

open KDZ

/-- C1: the code maps the near-plane probe point to post-divide z = -1, not
into [0,1].  `perspective(90,1,1,100)` applied to (0,0,-1,1) gives clip-space
w = 1 = -z_eye (that part of the claim holds), but the homogeneous divide
yields z = -1, which is negative, contradicting the claim (and the source's
own comments) that clip-space z lands in [0,1]. -/
theorem C1_perspective_near_plane_z_is_minus_one :
    (((Util.perspective 90 1 1 100).mulVec ⟨0, 0, -1, 1⟩).fromHomogeneous).z = -1 ∧
    ((Util.perspective 90 1 1 100).mulVec ⟨0, 0, -1, 1⟩).w = -(-1 : ℝ) ∧
    ¬(0 ≤ (-1 : ℝ)) := by
  refine ⟨?_, ?_, by norm_num⟩ <;>
  · simp [Util.perspective, Matrix4.set, Matrix4.identity, Matrix4.mulVec,
      Vector4.fromHomogeneous]
    try norm_num

/-- C5 (amended): `rotateX` and `rotateY` return T*M with the claimed
cos/sin block pattern (angle converted by degrees*π/180), but `rotateZ`
places the sines transposed: (0,1)=-sin and (1,0)=sin, not (1,0)=-sin and
(0,1)=sin as claimed. -/
theorem C5_rotation_blocks (M : Matrix4) (d : ℝ) :
    Util.rotateX M d = (Util.claimedRotX d).mul M ∧
    Util.rotateY M d = (Util.claimedRotY d).mul M ∧
    Util.rotateZ M d = (Util.sourceRotZ d).mul M := by
  refine ⟨?_, ?_, ?_⟩
  · have h : (((Matrix4.identity.set 1 1 (Real.cos (Util.degToRad d))).set 2 1
        (-Real.sin (Util.degToRad d))).set 1 2 (Real.sin (Util.degToRad d))).set 2 2
        (Real.cos (Util.degToRad d)) = Util.claimedRotX d := by
      funext i j
      fin_cases i <;> fin_cases j <;>
        simp [Matrix4.set, Matrix4.identity, Util.claimedRotX, Util.degToRad]
    simpa [Util.rotateX] using congrArg (fun A => Matrix4.mul A M) h
  · have h : (((Matrix4.identity.set 0 0 (Real.cos (Util.degToRad d))).set 0 2
        (Real.sin (Util.degToRad d))).set 2 0 (-Real.sin (Util.degToRad d))).set 2 2
        (Real.cos (Util.degToRad d)) = Util.claimedRotY d := by
      funext i j
      fin_cases i <;> fin_cases j <;>
        simp [Matrix4.set, Matrix4.identity, Util.claimedRotY, Util.degToRad]
    simpa [Util.rotateY] using congrArg (fun A => Matrix4.mul A M) h
  · have h : (((Matrix4.identity.set 0 0 (Real.cos (Util.degToRad d))).set 0 1
        (-Real.sin (Util.degToRad d))).set 1 0 (Real.sin (Util.degToRad d))).set 1 1
        (Real.cos (Util.degToRad d)) = Util.sourceRotZ d := by
      funext i j
      fin_cases i <;> fin_cases j <;>
        simp [Matrix4.set, Matrix4.identity, Util.sourceRotZ, Util.degToRad]
    simpa [Util.rotateZ] using congrArg (fun A => Matrix4.mul A M) h

/-- C5 counterexample: at 90 degrees, `rotateZ` applied to the identity does
not match the claimed block pattern — its (1,0) entry is sin(π/2) = 1, where
the claim requires -sin(π/2) = -1. -/
theorem C5_counterexample_rotateZ_sign :
    Util.rotateZ Matrix4.identity 90 ≠ (Util.claimedRotZ 90).mul Matrix4.identity := by
  intro h
  have h10 := congrFun (congrFun h 1) 0
  have hang : Util.degToRad 90 = Real.pi / 2 := by
    unfold Util.degToRad; ring
  have hs : Real.sin (Util.degToRad 90) = 1 := by
    rw [hang]; exact Real.sin_pi_div_two
  have hL : Util.rotateZ Matrix4.identity 90 1 0 = 1 := by
    simp [Util.rotateZ, Matrix4.mul, Fin.sum_univ_four, Matrix4.set,
      Matrix4.identity, hs]
  have hR : ((Util.claimedRotZ 90).mul Matrix4.identity) 1 0 = -1 := by
    have : (90 : ℝ) * Real.pi / 180 = Util.degToRad 90 := by
      unfold Util.degToRad; ring
    simp [Matrix4.mul, Fin.sum_univ_four, Util.claimedRotZ, Matrix4.identity,
      this, hs]
  rw [hL, hR] at h10
  norm_num at h10

/-- C6: with nonzero denominator the barycentric weights sum to 1; for any
point in the triangle's plane, the weighted combination of a, b, c
reconstructs the point; and the centroid receives weights (1/3, 1/3, 1/3). -/
theorem C6_barycentric_weights (a b c : Vector3) (hd : Util.baryDenom a b c ≠ 0) :
    (∀ p : Vector3,
      (Util.barycentric p a b c).x + (Util.barycentric p a b c).y +
        (Util.barycentric p a b c).z = 1) ∧
    (∀ (p : Vector3) (s t : ℝ),
      p = (a.add ((b.sub a).smul s)).add ((c.sub a).smul t) →
      (a.smul (Util.barycentric p a b c).x).add
        ((b.smul (Util.barycentric p a b c).y).add
          (c.smul (Util.barycentric p a b c).z)) = p) ∧
    Util.barycentric (centroid a b c) a b c = ⟨1/3, 1/3, 1/3⟩ := by
  simp only [Util.baryDenom, Vector3.sub, Vector3.dot] at hd
  refine ⟨?_, ?_, ?_⟩
  · intro p
    simp only [Util.barycentric, Vector3.sub, Vector3.dot]
    ring
  · intro p s t hp
    subst hp
    simp only [Util.barycentric, Vector3.add, Vector3.sub, Vector3.smul,
      Vector3.dot, Vector3.mk.injEq]
    refine ⟨?_, ?_, ?_⟩ <;>
    · field_simp
      ring
  · simp only [Util.barycentric, centroid, Vector3.add, Vector3.sub,
      Vector3.smul, Vector3.dot, Vector3.mk.injEq]
    refine ⟨?_, ?_, ?_⟩ <;>
    · field_simp
      ring

/-- Helper: summing a normalized row against the target and the negated eye
collapses to minus the length, given the length's defining square. -/
lemma normalizedRow_collapse (A B C L t1 t2 t3 e1 e2 e3 : ℝ) (hL : L ≠ 0)
    (h : A * (t1 - e1) + B * (t2 - e2) + C * (t3 - e3) = -(L * L)) :
    A / L * t1 + B / L * t2 + C / L * t3 +
      (A / L * -e1 + B / L * -e2 + C / L * -e3) * 1 = -L := by
  have expand : A / L * t1 + B / L * t2 + C / L * t3 +
      (A / L * -e1 + B / L * -e2 + C / L * -e3) * 1
      = (A * (t1 - e1) + B * (t2 - e2) + C * (t3 - e3)) / L := by ring
  rw [expand, h, neg_div, mul_div_cancel_left₀ _ hL]

/-- C7: for eye ≠ target (and up not parallel to eye − target, as the claim
assumes), applying the lookAt matrix to the homogeneous target point yields
a point whose z-component is -|eye − target|. -/
theorem C7_lookAt_target_forward_distance (eye target up : Vector3)
    (hne : eye ≠ target)
    (hpar : up.cross (eye.sub target) ≠ ⟨0, 0, 0⟩) :
    ((Util.lookAt eye target up).mulVec ⟨target.x, target.y, target.z, 1⟩).z
      = -((eye.sub target).len) := by
  have hcomp : (eye.sub target).x ≠ 0 ∨ (eye.sub target).y ≠ 0 ∨
      (eye.sub target).z ≠ 0 := by
    by_contra h
    push_neg at h
    obtain ⟨h1, h2, h3⟩ := h
    simp only [Vector3.sub, sub_eq_zero] at h1 h2 h3
    exact hne (by cases eye; cases target; simp_all)
  have hdot : 0 < (eye.sub target).dot (eye.sub target) := by
    have hx := mul_self_nonneg (eye.sub target).x
    have hy := mul_self_nonneg (eye.sub target).y
    have hz := mul_self_nonneg (eye.sub target).z
    rcases hcomp with h | h | h <;>
      · have := mul_self_pos.mpr h
        simp only [Vector3.dot]
        linarith
  have hlenpos : 0 < (eye.sub target).len := Real.sqrt_pos.mpr hdot
  have hlen2 : (eye.sub target).len * (eye.sub target).len
      = (eye.sub target).dot (eye.sub target) := Real.mul_self_sqrt hdot.le
  have h20 : (Util.lookAt eye target up) 2 0 = ((eye.sub target).normalized).x := by
    simp [Util.lookAt, Matrix4.mul, Fin.sum_univ_four, Matrix4.ofSixteen]
  have h21 : (Util.lookAt eye target up) 2 1 = ((eye.sub target).normalized).y := by
    simp [Util.lookAt, Matrix4.mul, Fin.sum_univ_four, Matrix4.ofSixteen]
  have h22 : (Util.lookAt eye target up) 2 2 = ((eye.sub target).normalized).z := by
    simp [Util.lookAt, Matrix4.mul, Fin.sum_univ_four, Matrix4.ofSixteen]
  have h23 : (Util.lookAt eye target up) 2 3 =
      ((eye.sub target).normalized).x * -eye.x +
        ((eye.sub target).normalized).y * -eye.y +
        ((eye.sub target).normalized).z * -eye.z := by
    simp [Util.lookAt, Matrix4.mul, Fin.sum_univ_four, Matrix4.ofSixteen]
  show (Util.lookAt eye target up) 2 0 * target.x +
      (Util.lookAt eye target up) 2 1 * target.y +
      (Util.lookAt eye target up) 2 2 * target.z +
      (Util.lookAt eye target up) 2 3 * 1 = -((eye.sub target).len)
  rw [h20, h21, h22, h23]
  simp only [Vector3.dot] at hlen2
  simp only [Vector3.normalized, Vector3.sub] at hlen2 hlenpos ⊢
  exact normalizedRow_collapse _ _ _ _ _ _ _ _ _ _ hlenpos.ne'
    (by linear_combination hlen2)

/-- C6 witness: a concrete nondegenerate triangle discharging the nonzero
denominator hypothesis, with the weight-sum conclusion at a concrete
point. -/
theorem C6_barycentric_weights_witness :
    Util.baryDenom ⟨0, 0, 0⟩ ⟨1, 0, 0⟩ ⟨0, 1, 0⟩ ≠ 0 ∧
    ((Util.barycentric ⟨5, 7, 0⟩ ⟨0, 0, 0⟩ ⟨1, 0, 0⟩ ⟨0, 1, 0⟩).x +
      (Util.barycentric ⟨5, 7, 0⟩ ⟨0, 0, 0⟩ ⟨1, 0, 0⟩ ⟨0, 1, 0⟩).y +
      (Util.barycentric ⟨5, 7, 0⟩ ⟨0, 0, 0⟩ ⟨1, 0, 0⟩ ⟨0, 1, 0⟩).z = 1) := by
  have hd : Util.baryDenom ⟨0, 0, 0⟩ ⟨1, 0, 0⟩ ⟨0, 1, 0⟩ ≠ 0 := by
    norm_num [Util.baryDenom, Vector3.sub, Vector3.dot]
  exact ⟨hd, (C6_barycentric_weights _ _ _ hd).1 ⟨5, 7, 0⟩⟩

/-- C7 witness: eye (0,0,1), target (0,0,0), up (0,1,0) discharge both
hypotheses, and the z-component of the mapped target is minus the
eye-target distance. -/
theorem C7_lookAt_target_forward_distance_witness :
    ((⟨0, 0, 1⟩ : Vector3) ≠ (⟨0, 0, 0⟩ : Vector3)) ∧
    (Vector3.cross ⟨0, 1, 0⟩ (Vector3.sub ⟨0, 0, 1⟩ ⟨0, 0, 0⟩) ≠ (⟨0, 0, 0⟩ : Vector3)) ∧
    ((Util.lookAt ⟨0, 0, 1⟩ ⟨0, 0, 0⟩ ⟨0, 1, 0⟩).mulVec ⟨0, 0, 0, 1⟩).z
      = -(((⟨0, 0, 1⟩ : Vector3).sub ⟨0, 0, 0⟩).len) := by
  have h1 : ((⟨0, 0, 1⟩ : Vector3) ≠ (⟨0, 0, 0⟩ : Vector3)) := by
    simp [Vector3.mk.injEq]
  have h2 : Vector3.cross ⟨0, 1, 0⟩ (Vector3.sub ⟨0, 0, 1⟩ ⟨0, 0, 0⟩)
      ≠ (⟨0, 0, 0⟩ : Vector3) := by
    simp [Vector3.cross, Vector3.sub, Vector3.mk.injEq]
  exact ⟨h1, h2, C7_lookAt_target_forward_distance ⟨0, 0, 1⟩ ⟨0, 0, 0⟩ ⟨0, 1, 0⟩ h1 h2⟩

/-- C2: `drawPoint` computes candidate 1/z; inside the exclusive bounds and
with the candidate above the stored cell it writes the cell and draws the
pixel, leaving every other cell alone; otherwise it changes nothing.  In
particular x = 0 or y = 0 (the first row/column) is always rejected. -/
theorem C2_drawPoint_test_and_set (w h : ℤ) (st : RState) (x y : ℤ) (z : ℝ)
    (br : ℕ) :
    ((0 < x ∧ x < w ∧ 0 < y ∧ y < h) →
      ((((1 / z : ℝ) : WithBot ℝ) > st.zbuf x y →
        (drawPoint w h st x y z br).zbuf x y = ((1 / z : ℝ) : WithBot ℝ) ∧
        (drawPoint w h st x y z br).col x y = some br ∧
        (∀ a b : ℤ, ¬(a = x ∧ b = y) →
          (drawPoint w h st x y z br).zbuf a b = st.zbuf a b ∧
          (drawPoint w h st x y z br).col a b = st.col a b)) ∧
      (¬(((1 / z : ℝ) : WithBot ℝ) > st.zbuf x y) →
        drawPoint w h st x y z br = st))) ∧
    (¬(0 < x ∧ x < w ∧ 0 < y ∧ y < h) → drawPoint w h st x y z br = st) ∧
    (x = 0 → drawPoint w h st x y z br = st) ∧
    (y = 0 → drawPoint w h st x y z br = st) := by
  refine ⟨fun hb => ⟨fun hz => ?_, fun hz => ?_⟩, fun hb => ?_, fun hx => ?_,
    fun hy => ?_⟩
  · simp only [drawPoint, if_pos hb, if_pos hz]
    exact ⟨by simp, by simp, fun a b hab => ⟨by simp [hab], by simp [hab]⟩⟩
  · simp only [drawPoint, if_pos hb, if_neg hz]
  · simp only [drawPoint, if_neg hb]
  · subst hx
    simp [drawPoint]
  · subst hy
    simp [drawPoint]

/-- C2 witness: pixel (1,2) of a 10×10 viewport against the cleared buffer
with z = 2 passes the bounds and depth tests, stores 1/2 and draws. -/
theorem C2_drawPoint_test_and_set_witness :
    ((0 < (1 : ℤ) ∧ (1 : ℤ) < 10 ∧ 0 < (2 : ℤ) ∧ (2 : ℤ) < 10) ∧
      (((1 / (2 : ℝ) : ℝ) : WithBot ℝ) > clearedState.zbuf 1 2)) ∧
    (drawPoint 10 10 clearedState 1 2 2 7).zbuf 1 2 = ((1 / (2 : ℝ) : ℝ) : WithBot ℝ) ∧
    (drawPoint 10 10 clearedState 1 2 2 7).col 1 2 = some 7 := by
  have hb : 0 < (1 : ℤ) ∧ (1 : ℤ) < 10 ∧ 0 < (2 : ℤ) ∧ (2 : ℤ) < 10 := by norm_num
  have hz : (((1 / (2 : ℝ) : ℝ) : WithBot ℝ) > clearedState.zbuf 1 2) := by
    simp [clearedState]
  have main := ((C2_drawPoint_test_and_set 10 10 clearedState 1 2 2 7).1 hb).1 hz
  exact ⟨⟨hb, hz⟩, main.1, main.2.1⟩

/-- Helper: truncation toward zero at an integer cast is the integer. -/
lemma trunc_intCast (n : ℤ) : trunc (n : ℝ) = n := by
  unfold trunc
  split_ifs <;> simp

/-- C3 (amended): the scanline loop bound is exclusive — fillPolygon visits
exactly the offsets 0 ≤ i < totalHeight = trunc(third.y − first.y)
(totalHeight scanlines, not totalHeight + 1), where the sorted first and
third vertices carry the minimum and maximum y of the triangle. -/
theorem C3_scanlines_exclusive (vf vs vt : Vector3) :
    (sortTri vf vs vt).1.y = min (min vf.y vs.y) vt.y ∧
    (sortTri vf vs vt).2.2.y = max (max vf.y vs.y) vt.y ∧
    (∀ i : ℤ, i ∈ scanIndices vf vs vt ↔
      ¬(vf.y = vs.y ∧ vf.y = vt.y) ∧ 0 ≤ i ∧
        i < trunc ((sortTri vf vs vt).2.2.y - (sortTri vf vs vt).1.y)) := by
  have hmin : (sortTri vf vs vt).1.y = min (min vf.y vs.y) vt.y := by
    simp only [sortTri]
    split_ifs <;>
      · simp only [min_def, max_def]
        split_ifs <;> linarith
  have hmax : (sortTri vf vs vt).2.2.y = max (max vf.y vs.y) vt.y := by
    simp only [sortTri]
    split_ifs <;>
      · simp only [min_def, max_def]
        split_ifs <;> linarith
  refine ⟨hmin, hmax, fun i => ?_⟩
  by_cases hg : vf.y = vs.y ∧ vf.y = vt.y
  · simp only [scanIndices]
    rw [if_pos hg]
    simp only [List.not_mem_nil, false_iff]
    rintro ⟨hng, -⟩
    exact hng hg
  · have hΔ : 0 ≤ (sortTri vf vs vt).2.2.y - (sortTri vf vs vt).1.y := by
      rw [hmin, hmax]
      have h1 : min (min vf.y vs.y) vt.y ≤ min vf.y vs.y := min_le_left _ _
      have h2 : min vf.y vs.y ≤ vf.y := min_le_left _ _
      have h3 : vf.y ≤ max vf.y vs.y := le_max_left _ _
      have h4 : max vf.y vs.y ≤ max (max vf.y vs.y) vt.y := le_max_left _ _
      linarith
    have htr : 0 ≤ trunc ((sortTri vf vs vt).2.2.y - (sortTri vf vs vt).1.y) := by
      unfold trunc
      rw [if_pos hΔ]
      exact Int.floor_nonneg.mpr hΔ
    simp only [scanIndices]
    rw [if_neg hg]
    simp only [List.mem_map, List.mem_range]
    constructor
    · rintro ⟨n, hn, rfl⟩
      exact ⟨hg, by omega, by omega⟩
    · rintro ⟨-, h0, hlt⟩
      exact ⟨i.toNat, by omega, by omega⟩

/-- C3 counterexample: for the triangle with sorted y-range [0, 2]
(totalHeight = 2), fillPolygon's visited scanline offsets are [0, 1] — the
loop is exclusive of totalHeight, not inclusive as claimed ([0, 1, 2]). -/
theorem C3_counterexample_scanlines :
    trunc ((sortTri ⟨0, 0, 0⟩ ⟨1, 1, 0⟩ ⟨2, 2, 0⟩).2.2.y -
      (sortTri ⟨0, 0, 0⟩ ⟨1, 1, 0⟩ ⟨2, 2, 0⟩).1.y) = 2 ∧
    scanIndices ⟨0, 0, 0⟩ ⟨1, 1, 0⟩ ⟨2, 2, 0⟩ = [0, 1] ∧
    scanIndices ⟨0, 0, 0⟩ ⟨1, 1, 0⟩ ⟨2, 2, 0⟩ ≠ [0, 1, 2] := by
  have hsort : sortTri ⟨0, 0, 0⟩ ⟨1, 1, 0⟩ ⟨2, 2, 0⟩
      = (⟨0, 0, 0⟩, ⟨1, 1, 0⟩, ⟨2, 2, 0⟩) := by
    norm_num [sortTri]
  have htr : trunc ((sortTri ⟨0, 0, 0⟩ ⟨1, 1, 0⟩ ⟨2, 2, 0⟩).2.2.y -
      (sortTri ⟨0, 0, 0⟩ ⟨1, 1, 0⟩ ⟨2, 2, 0⟩).1.y) = 2 := by
    rw [hsort]
    norm_num [trunc]
  have h : scanIndices ⟨0, 0, 0⟩ ⟨1, 1, 0⟩ ⟨2, 2, 0⟩ = [0, 1] := by
    simp only [scanIndices]
    rw [if_neg (by norm_num)]
    rw [show trunc ((sortTri ⟨0, 0, 0⟩ ⟨1, 1, 0⟩ ⟨2, 2, 0⟩).2.2.y -
      (sortTri ⟨0, 0, 0⟩ ⟨1, 1, 0⟩ ⟨2, 2, 0⟩).1.y) = 2 from htr]
    decide
  exact ⟨htr, h, by rw [h]; simp⟩

/-- Helper: the error-correction loop is the identity when e is negative. -/
lemma bresenhamCorrect_neg (isSwap : Bool) (sx sy dx x y e : ℤ) (he : e < 0) :
    bresenhamCorrect isSwap sx sy dx x y e = (x, y, e) := by
  rw [bresenhamCorrect, if_neg (by omega)]

/-- Helper: one iteration of the horizontal-line loop of C4's first probe:
no swap, slopes sx = 1, sy = 0, dx = 4, dy = 0, error stuck at -4. -/
lemma lineLoop_horizontal_step (br : ℕ) (n : ℕ) (x : ℤ) :
    lineLoop false 1 0 4 0 ⟨0, 0, 1⟩ ⟨4, 0, 1⟩ br (n + 1) x 0 (-4) =
      ⟨x, 0, 1, br⟩ :: lineLoop false 1 0 4 0 ⟨0, 0, 1⟩ ⟨4, 0, 1⟩ br n (x + 1) 0 (-4) := by
  rw [lineLoop]
  rw [bresenhamCorrect_neg false 1 0 4 x 0 (-4) (by norm_num)]
  simp only [Bool.false_eq_true, if_false]
  rw [List.cons.injEq]
  refine ⟨?_, by norm_num⟩
  congr 1
  ring

/-- Helper: the full pixel list of `drawLine((0,0,1),(4,0,1))`. -/
lemma drawLineSubs_horizontal (br : ℕ) :
    drawLineSubs ⟨0, 0, 1⟩ ⟨4, 0, 1⟩ br =
      [⟨0, 0, 1, br⟩, ⟨1, 0, 1, br⟩, ⟨2, 0, 1, br⟩, ⟨3, 0, 1, br⟩] := by
  have h : drawLineSubs ⟨0, 0, 1⟩ ⟨4, 0, 1⟩ br
      = lineLoop false 1 0 4 0 ⟨0, 0, 1⟩ ⟨4, 0, 1⟩ br 4 0 0 (-4) := by
    simp only [drawLineSubs]
    norm_num [trunc, sign]
    rfl
  have e4 := lineLoop_horizontal_step br 3 0
  have e3 := lineLoop_horizontal_step br 2 1
  have e2 := lineLoop_horizontal_step br 1 2
  have e1 := lineLoop_horizontal_step br 0 3
  norm_num at e4 e3 e2 e1
  rw [h, e4, e3, e2, e1, lineLoop]

/-- Helper: the zero-length line submits nothing. -/
lemma drawLineSubs_degenerate (br : ℕ) :
    drawLineSubs ⟨0, 0, 1⟩ ⟨0, 0, 1⟩ br = [] := by
  have h : drawLineSubs ⟨0, 0, 1⟩ ⟨0, 0, 1⟩ br
      = lineLoop false 0 0 0 0 ⟨0, 0, 1⟩ ⟨0, 0, 1⟩ br 0 0 0 0 := by
    simp only [drawLineSubs]
    norm_num [trunc, sign]
  rw [h, lineLoop]

/-- C4 counterexample: `drawLine((0,0,1),(4,0,1))` submits only the four
pixels (0,0)..(3,0) — the endpoint pixel (4,0) is never submitted, so the
claimed five-pixel list is wrong. -/
theorem C4_counterexample_endpoint_missing :
    drawLineSubs ⟨0, 0, 1⟩ ⟨4, 0, 1⟩ 0 ≠
      [⟨0, 0, 1, 0⟩, ⟨1, 0, 1, 0⟩, ⟨2, 0, 1, 0⟩, ⟨3, 0, 1, 0⟩, ⟨4, 0, 1, 0⟩] := by
  rw [drawLineSubs_horizontal]
  simp

/-- C4 (amended): `drawLine((0,0,1),(4,0,1))` submits exactly the pixels
(0,0),(1,0),(2,0),(3,0) to the depth test, each with interpolated depth
exactly 1.0 (the endpoint (4,0) is excluded by the loop bound), and the
zero-length `drawLine((0,0,1),(0,0,1))` executes without error and submits
no pixel at all (at most the single point, as claimed). -/
theorem C4_line_raster_pixels (br : ℕ) :
    drawLineSubs ⟨0, 0, 1⟩ ⟨4, 0, 1⟩ br =
      [⟨0, 0, 1, br⟩, ⟨1, 0, 1, br⟩, ⟨2, 0, 1, br⟩, ⟨3, 0, 1, br⟩] ∧
    drawLineSubs ⟨0, 0, 1⟩ ⟨0, 0, 1⟩ br = [] :=
  ⟨drawLineSubs_horizontal br, drawLineSubs_degenerate br⟩

/-- Helper: `drawPoint` viewed through one cell — the touched in-bounds
pixel undergoes `cellStep`, every other cell is untouched. -/
lemma cellOf_drawPoint (w h : ℤ) (st : RState) (x y : ℤ) (z : ℝ) (br : ℕ)
    (a b : ℤ) :
    cellOf (drawPoint w h st x y z br) a b =
      if (0 < x ∧ x < w ∧ 0 < y ∧ y < h) ∧ a = x ∧ b = y
      then cellStep (cellOf st a b) ⟨x, y, z, br⟩
      else cellOf st a b := by
  by_cases hb : 0 < x ∧ x < w ∧ 0 < y ∧ y < h
  · by_cases hp : a = x ∧ b = y
    · obtain ⟨rfl, rfl⟩ := hp
      rw [if_pos ⟨hb, rfl, rfl⟩]
      simp [drawPoint, hb, cellOf, cellStep] ; split_ifs <;> simp_all
    · rw [if_neg (fun hc => hp hc.2)]
      simp [drawPoint, hb, cellOf] ; split_ifs <;> simp_all [hp]
  · rw [if_neg (fun hc => hb hc.1)]
    simp [drawPoint, hb]

/-- Helper: the state after a submission list, viewed through one cell, is
the per-cell fold of the submissions that are in bounds and hit that
cell. -/
lemma cellOf_renderList (w h : ℤ) (l : List Submission) (st : RState)
    (a b : ℤ) :
    cellOf (renderList w h st l) a b =
      List.foldl cellStep (cellOf st a b)
        (l.filter (fun s => decide (inBounds w h s ∧ s.px = a ∧ s.py = b))) := by
  induction l generalizing st with
  | nil => rfl
  | cons s rest ih =>
    show cellOf (renderList w h (drawPoint w h st s.px s.py s.pz s.pbr) rest) a b = _
    rw [ih]
    by_cases hc : inBounds w h s ∧ s.px = a ∧ s.py = b
    · rw [List.filter_cons_of_pos (by simpa using hc)]
      rw [cellOf_drawPoint,
        if_pos (⟨hc.1, hc.2.1.symm, hc.2.2.symm⟩ :
          (0 < s.px ∧ s.px < w ∧ 0 < s.py ∧ s.py < h) ∧ a = s.px ∧ b = s.py)]
      rfl
    · rw [List.filter_cons_of_neg (by simpa using hc)]
      rw [cellOf_drawPoint,
        if_neg (fun hcon => hc ⟨hcon.1, hcon.2.1.symm, hcon.2.2.symm⟩)]

/-- Helper: a second depth test with the same submission never changes the
cell again (the strict comparison fails against its own stored value). -/
lemma cellStep_absorb (c : WithBot ℝ × Option ℕ) (a : Submission) :
    cellStep (cellStep c a) a = cellStep c a := by
  unfold cellStep
  by_cases h : ((1 / a.pz : ℝ) : WithBot ℝ) > c.1
  · rw [if_pos h, if_neg (by simp)]
  · rw [if_neg h, if_neg h]

/-- Helper: folding any number of copies of the same submission after the
first one changes nothing. -/
lemma foldl_cellStep_after (a : Submission) :
    ∀ (l : List Submission) (c : WithBot ℝ × Option ℕ), (∀ x ∈ l, x = a) →
      List.foldl cellStep (cellStep c a) l = cellStep c a := by
  intro l
  induction l with
  | nil => intro c _; rfl
  | cons b rest ih =>
    intro c hall
    have hb : b = a := hall b (by simp)
    subst hb
    show List.foldl cellStep (cellStep (cellStep c b) b) rest = cellStep c b
    rw [cellStep_absorb]
    exact ih c (fun x hx => hall x (by simp [hx]))

/-- Helper: a list whose elements are all one submission folds to a single
step. -/
lemma foldl_cellStep_allEq (l : List Submission) (c : WithBot ℝ × Option ℕ)
    (a : Submission) (ha : a ∈ l) (hall : ∀ x ∈ l, x = a) :
    List.foldl cellStep c l = cellStep c a := by
  cases l with
  | nil => cases ha
  | cons b rest =>
    have hb : b = a := hall b (by simp)
    subst hb
    show List.foldl cellStep (cellStep c b) rest = cellStep c b
    exact foldl_cellStep_after b rest c (fun x hx => hall x (by simp [hx]))

/-- Helper: two depth-test steps with different candidate depths commute on
a cell (the strictly larger candidate wins either way). -/
lemma cellStep_comm (c : WithBot ℝ × Option ℕ) (a b : Submission)
    (hne : ((1 / a.pz : ℝ) : WithBot ℝ) ≠ ((1 / b.pz : ℝ) : WithBot ℝ)) :
    cellStep (cellStep c a) b = cellStep (cellStep c b) a := by
  have key : ∀ (c : WithBot ℝ × Option ℕ) (a b : Submission),
      ((1 / a.pz : ℝ) : WithBot ℝ) < ((1 / b.pz : ℝ) : WithBot ℝ) →
      cellStep (cellStep c a) b = cellStep (cellStep c b) a := by
    intro c a b hab
    unfold cellStep
    by_cases hbc : ((1 / b.pz : ℝ) : WithBot ℝ) > c.1
    · by_cases hac : ((1 / a.pz : ℝ) : WithBot ℝ) > c.1
      · rw [if_pos hac, if_pos hbc, if_pos (by simpa using hab),
          if_neg (by simpa using not_lt.mpr hab.le)]
      · rw [if_neg hac, if_pos hbc, if_neg (by simpa using not_lt.mpr hab.le)]
    · have hac : ¬((1 / a.pz : ℝ) : WithBot ℝ) > c.1 := by
        intro hac
        exact hbc (lt_trans hac hab)
      rw [if_neg hac, if_neg hbc, if_neg hac]
  rcases lt_or_gt_of_ne hne with h | h
  · exact key c a b h
  · exact (key c b a h).symm

/-- Helper: when a row index is at least 1, the truncation is a floor and
shifts by the integer scanline offset. -/
lemma trunc_add_nat_eq (c : ℝ) (k : ℕ) (hk : 1 ≤ trunc (c + k)) :
    trunc (c + k) = ⌊c⌋ + k := by
  by_cases h0 : 0 ≤ c + k
  · unfold trunc
    rw [if_pos h0]
    exact_mod_cast Int.floor_add_nat c k
  · exfalso
    unfold trunc at hk
    rw [if_neg h0] at hk
    have hc : ⌈c + (k : ℝ)⌉ ≤ (0 : ℤ) := Int.ceil_le.mpr (by push_cast; linarith [not_le.mp h0])
    omega

/-- Helper: rows at least 1 pin down the scanline offset. -/
lemma trunc_row_inj (c : ℝ) (m n : ℕ) (h1 : 1 ≤ trunc (c + m))
    (heq : trunc (c + m) = trunc (c + n)) : m = n := by
  have e1 := trunc_add_nat_eq c m h1
  have e2 := trunc_add_nat_eq c n (heq ▸ h1)
  omega

/-- Helper: the shape of every submission the triangle filler emits. -/
lemma fillPolygonSubs_mem (vf vs vt : Vector3) (br : ℕ) (s : Submission)
    (hs : s ∈ fillPolygonSubs vf vs vt br) :
    ∃ iN : ℕ, ∃ j : ℤ,
      s = ⟨j, trunc ((sortTri vf vs vt).1.y + (iN : ℝ)),
        fillDepth vf vs vt (sortTri vf vs vt).1 (sortTri vf vs vt).2.1
          (sortTri vf vs vt).2.2 (iN : ℤ) j, br⟩ := by
  unfold fillPolygonSubs at hs
  by_cases hg : vf.y = vs.y ∧ vf.y = vt.y
  · rw [if_pos hg] at hs
    cases hs
  · rw [if_neg hg] at hs
    simp only [List.mem_flatMap, List.mem_map] at hs
    obtain ⟨iN, _, j, _, rfl⟩ := hs
    exact ⟨iN, j, rfl⟩

/-- Helper: within one triangle fill, two submissions that hit the same
pixel on a row at or below the viewport interior (row ≥ 1) are the same
submission. -/
lemma fillPolygonSubs_pixel_unique (vf vs vt : Vector3) (br : ℕ)
    (s1 s2 : Submission) (h1 : s1 ∈ fillPolygonSubs vf vs vt br)
    (h2 : s2 ∈ fillPolygonSubs vf vs vt br) (hpx : s1.px = s2.px)
    (hpy : s1.py = s2.py) (hb : 1 ≤ s1.py) : s1 = s2 := by
  obtain ⟨i1, j1, rfl⟩ := fillPolygonSubs_mem vf vs vt br s1 h1
  obtain ⟨i2, j2, rfl⟩ := fillPolygonSubs_mem vf vs vt br s2 h2
  simp only at hpx hpy hb
  have hi : i1 = i2 := trunc_row_inj _ i1 i2 hb hpy
  subst hi
  have hj : j1 = j2 := hpx
  subst hj
  rfl

/-- Helper: folding two per-pixel singleton groups in either order gives the
same cell when the candidate depths differ across the groups. -/
lemma foldl_cellStep_append_comm (fA fB : List Submission)
    (c0 : WithBot ℝ × Option ℕ)
    (hA : ∀ x ∈ fA, ∀ x' ∈ fA, x = x')
    (hB : ∀ x ∈ fB, ∀ x' ∈ fB, x = x')
    (hAB : ∀ x ∈ fA, ∀ y ∈ fB,
      ((1 / x.pz : ℝ) : WithBot ℝ) ≠ ((1 / y.pz : ℝ) : WithBot ℝ)) :
    List.foldl cellStep c0 (fA ++ fB) = List.foldl cellStep c0 (fB ++ fA) := by
  rcases fA with _ | ⟨a, restA⟩
  · simp
  · rcases fB with _ | ⟨b, restB⟩
    · simp
    · rw [List.foldl_append, List.foldl_append]
      rw [foldl_cellStep_allEq (a :: restA) c0 a (by simp)
        (fun x hx => hA x hx a (by simp))]
      rw [foldl_cellStep_allEq (b :: restB) c0 b (by simp)
        (fun x hx => hB x hx b (by simp))]
      rw [foldl_cellStep_allEq (b :: restB) (cellStep c0 a) b (by simp)
        (fun x hx => hB x hx b (by simp))]
      rw [foldl_cellStep_allEq (a :: restA) (cellStep c0 b) a (by simp)
        (fun x hx => hA x hx a (by simp))]
      exact cellStep_comm c0 a b (hAB a (by simp) b (by simp))

/-- C9: filling triangle A then triangle B colors every pixel the same as
filling B then A, provided the two fills never submit the same pixel with
equal depths — the strictly closer (larger 1/z) submission wins per pixel
regardless of draw order. -/
theorem C9_depth_order_independent (w h : ℤ) (st : RState)
    (a1 a2 a3 b1 b2 b3 : Vector3) (brA brB : ℕ)
    (hdist : ∀ sA ∈ fillPolygonSubs a1 a2 a3 brA,
      ∀ sB ∈ fillPolygonSubs b1 b2 b3 brB,
        sA.px = sB.px → sA.py = sB.py → sA.pz ≠ sB.pz) :
    (fillPolygon w h (fillPolygon w h st a1 a2 a3 brA) b1 b2 b3 brB).col
      = (fillPolygon w h (fillPolygon w h st b1 b2 b3 brB) a1 a2 a3 brA).col := by
  funext x y
  have happ : ∀ (l1 l2 : List Submission) (st : RState),
      renderList w h (renderList w h st l1) l2 = renderList w h st (l1 ++ l2) := by
    intro l1 l2 st
    unfold renderList
    rw [List.foldl_append]
  have key : cellOf (fillPolygon w h (fillPolygon w h st a1 a2 a3 brA) b1 b2 b3 brB) x y
      = cellOf (fillPolygon w h (fillPolygon w h st b1 b2 b3 brB) a1 a2 a3 brA) x y := by
    unfold fillPolygon
    rw [happ, happ, cellOf_renderList, cellOf_renderList,
      List.filter_append, List.filter_append]
    apply foldl_cellStep_append_comm
    · intro s1 hs1 s2 hs2
      rw [List.mem_filter] at hs1 hs2
      have p1 := of_decide_eq_true hs1.2
      have p2 := of_decide_eq_true hs2.2
      exact fillPolygonSubs_pixel_unique a1 a2 a3 brA s1 s2 hs1.1 hs2.1
        (p1.2.1.trans p2.2.1.symm) (p1.2.2.trans p2.2.2.symm)
        (by have := p1.1.2.2.1; omega)
    · intro s1 hs1 s2 hs2
      rw [List.mem_filter] at hs1 hs2
      have p1 := of_decide_eq_true hs1.2
      have p2 := of_decide_eq_true hs2.2
      exact fillPolygonSubs_pixel_unique b1 b2 b3 brB s1 s2 hs1.1 hs2.1
        (p1.2.1.trans p2.2.1.symm) (p1.2.2.trans p2.2.2.symm)
        (by have := p1.1.2.2.1; omega)
    · intro sA hsA sB hsB
      rw [List.mem_filter] at hsA hsB
      have pA := of_decide_eq_true hsA.2
      have pB := of_decide_eq_true hsB.2
      have hz := hdist sA hsA.1 sB hsB.1 (pA.2.1.trans pB.2.1.symm)
        (pA.2.2.trans pB.2.2.symm)
      intro hcoe
      apply hz
      have h1 : (1 / sA.pz : ℝ) = 1 / sB.pz := WithBot.coe_inj.mp hcoe
      calc sA.pz = 1 / (1 / sA.pz) := (one_div_one_div _).symm
        _ = 1 / (1 / sB.pz) := by rw [h1]
        _ = sB.pz := one_div_one_div _
  exact congrArg Prod.snd key

/-- Helper: barycentric weights dot a constant vector to the constant — the
weights sum to 1 by construction (u := 1 - v - w), whatever the divisions
evaluate to. -/
lemma bary_dot_const (p a b c : Vector3) (z0 : ℝ) :
    (Util.barycentric p a b c).dot ⟨z0, z0, z0⟩ = z0 := by
  simp only [Util.barycentric, Vector3.dot]
  ring

/-- Helper: a fill of a constant-depth triangle submits every pixel at that
depth. -/
lemma fillPolygonSubs_const_depth (x1 y1 x2 y2 x3 y3 z0 : ℝ) (br : ℕ) :
    ∀ s ∈ fillPolygonSubs ⟨x1, y1, z0⟩ ⟨x2, y2, z0⟩ ⟨x3, y3, z0⟩ br,
      s.pz = z0 := by
  intro s hs
  obtain ⟨iN, j, rfl⟩ := fillPolygonSubs_mem _ _ _ _ s hs
  have h1 : (sortTri ⟨x1, y1, z0⟩ ⟨x2, y2, z0⟩ ⟨x3, y3, z0⟩).1.z = z0 := by
    simp only [sortTri]
    split_ifs <;> rfl
  have h2 : (sortTri ⟨x1, y1, z0⟩ ⟨x2, y2, z0⟩ ⟨x3, y3, z0⟩).2.1.z = z0 := by
    simp only [sortTri]
    split_ifs <;> rfl
  have h3 : (sortTri ⟨x1, y1, z0⟩ ⟨x2, y2, z0⟩ ⟨x3, y3, z0⟩).2.2.z = z0 := by
    simp only [sortTri]
    split_ifs <;> rfl
  show fillDepth _ _ _ _ _ _ _ _ = z0
  unfold fillDepth
  rw [h1, h2, h3]
  exact bary_dot_const _ _ _ _ z0

/-- Helper: the constant-depth witness triangle (right triangle over rows
1..5, columns 1..6) submits pixel (1,1) — scanline 0, column 1 — at its
constant depth. -/
lemma fillPolygonSubs_overlap_mem (z0 : ℝ) (br : ℕ) :
    (⟨1, 1, z0, br⟩ : Submission) ∈
      fillPolygonSubs ⟨1, 1, z0⟩ ⟨6, 1, z0⟩ ⟨1, 6, z0⟩ br := by
  have hsort : sortTri ⟨1, 1, z0⟩ ⟨6, 1, z0⟩ ⟨1, 6, z0⟩
      = (⟨1, 1, z0⟩, ⟨6, 1, z0⟩, ⟨1, 6, z0⟩) := by
    norm_num [sortTri]
  have hrow : fillRowJs ⟨1, 1, z0⟩ ⟨6, 1, z0⟩ ⟨1, 6, z0⟩ 0 = intsFromTo 1 6 := by
    simp only [fillRowJs]
    norm_num [Vector3.add, Vector3.sub, Vector3.smul, trunc]
  unfold fillPolygonSubs
  rw [if_neg (by norm_num)]
  rw [hsort]
  simp only [List.mem_flatMap, List.mem_map]
  refine ⟨0, ?_, 1, ?_, ?_⟩
  · have h5 : trunc ((⟨1, 6, z0⟩ : Vector3).y - (⟨1, 1, z0⟩ : Vector3).y) = 5 := by
      norm_num [trunc]
    rw [h5]
    norm_num
  · rw [Nat.cast_zero, hrow]
    decide
  · have h1 : trunc ((⟨1, 1, z0⟩ : Vector3).y + ((0 : ℕ) : ℝ)) = 1 := by
      norm_num [trunc]
    rw [h1]
    have hz : fillDepth ⟨1, 1, z0⟩ ⟨6, 1, z0⟩ ⟨1, 6, z0⟩ ⟨1, 1, z0⟩ ⟨6, 1, z0⟩
        ⟨1, 6, z0⟩ ((0 : ℕ) : ℤ) 1 = z0 := by
      unfold fillDepth
      exact bary_dot_const _ _ _ _ z0
    rw [hz]

/-- C9 witness: two genuinely overlapping triangles over the same screen
footprint, one at constant depth 2 and one at constant depth 3.  Both fills
submit the shared pixel (1,1) inside the 20×20 viewport, every shared pixel
carries distinct depths, and the two draw orders color the buffer
identically. -/
theorem C9_depth_order_independent_witness :
    (⟨1, 1, 2, 1⟩ : Submission) ∈ fillPolygonSubs ⟨1, 1, 2⟩ ⟨6, 1, 2⟩ ⟨1, 6, 2⟩ 1 ∧
    (⟨1, 1, 3, 2⟩ : Submission) ∈ fillPolygonSubs ⟨1, 1, 3⟩ ⟨6, 1, 3⟩ ⟨1, 6, 3⟩ 2 ∧
    inBounds 20 20 ⟨1, 1, 2, 1⟩ ∧
    (∀ sA ∈ fillPolygonSubs ⟨1, 1, 2⟩ ⟨6, 1, 2⟩ ⟨1, 6, 2⟩ 1,
      ∀ sB ∈ fillPolygonSubs ⟨1, 1, 3⟩ ⟨6, 1, 3⟩ ⟨1, 6, 3⟩ 2,
        sA.px = sB.px → sA.py = sB.py → sA.pz ≠ sB.pz) ∧
    (fillPolygon 20 20 (fillPolygon 20 20 clearedState ⟨1, 1, 2⟩ ⟨6, 1, 2⟩ ⟨1, 6, 2⟩ 1)
        ⟨1, 1, 3⟩ ⟨6, 1, 3⟩ ⟨1, 6, 3⟩ 2).col
      = (fillPolygon 20 20 (fillPolygon 20 20 clearedState ⟨1, 1, 3⟩ ⟨6, 1, 3⟩ ⟨1, 6, 3⟩ 2)
        ⟨1, 1, 2⟩ ⟨6, 1, 2⟩ ⟨1, 6, 2⟩ 1).col := by
  have hdist : ∀ sA ∈ fillPolygonSubs ⟨1, 1, 2⟩ ⟨6, 1, 2⟩ ⟨1, 6, 2⟩ 1,
      ∀ sB ∈ fillPolygonSubs ⟨1, 1, 3⟩ ⟨6, 1, 3⟩ ⟨1, 6, 3⟩ 2,
        sA.px = sB.px → sA.py = sB.py → sA.pz ≠ sB.pz := by
    intro sA hsA sB hsB _ _
    rw [fillPolygonSubs_const_depth 1 1 6 1 1 6 2 1 sA hsA,
      fillPolygonSubs_const_depth 1 1 6 1 1 6 3 2 sB hsB]
    norm_num
  exact ⟨fillPolygonSubs_overlap_mem 2 1, fillPolygonSubs_overlap_mem 3 2,
    by norm_num [inBounds], hdist,
    C9_depth_order_independent 20 20 clearedState _ _ _ _ _ _ 1 2 hdist⟩

/-- Helper: the x-range of scanline 1 of the C10 probe triangle. -/
lemma fillRowJs_c10 :
    fillRowJs ⟨0, 0, 1⟩ ⟨4, 0, 2⟩ ⟨0, 4, 3⟩ 1 = intsFromTo 0 3 := by
  simp only [fillRowJs]
  norm_num [Vector3.add, Vector3.sub, Vector3.smul, trunc]

/-- Helper: the C10 probe triangle sorts to itself. -/
lemma sortTri_c10 :
    sortTri ⟨0, 0, 1⟩ ⟨4, 0, 2⟩ ⟨0, 4, 3⟩
      = (⟨0, 0, 1⟩, ⟨4, 0, 2⟩, ⟨0, 4, 3⟩) := by
  norm_num [sortTri]

/-- Helper: the filler submits pixel (1,1) of the C10 probe triangle with
the depth computed by `fillDepth` at scanline 1, column 1. -/
lemma fillPolygonSubs_c10_mem (br : ℕ) :
    (⟨1, 1, fillDepth ⟨0, 0, 1⟩ ⟨4, 0, 2⟩ ⟨0, 4, 3⟩ ⟨0, 0, 1⟩ ⟨4, 0, 2⟩ ⟨0, 4, 3⟩ 1 1,
      br⟩ : Submission) ∈ fillPolygonSubs ⟨0, 0, 1⟩ ⟨4, 0, 2⟩ ⟨0, 4, 3⟩ br := by
  unfold fillPolygonSubs
  rw [if_neg (by norm_num)]
  rw [sortTri_c10]
  simp only [List.mem_flatMap, List.mem_map]
  refine ⟨1, ?_, 1, ?_, ?_⟩
  · have : trunc ((⟨0, 4, 3⟩ : Vector3).y - (⟨0, 0, 1⟩ : Vector3).y) = 4 := by
      norm_num [trunc]
    rw [this]
    norm_num
  · rw [Nat.cast_one, fillRowJs_c10]
    decide
  · have : trunc ((⟨0, 0, 1⟩ : Vector3).y + ((1 : ℕ) : ℝ)) = 1 := by
      norm_num [trunc]
    rw [this]
    norm_num

/-- C10: the filler's per-pixel weights keep the vertices' screen-space z
and query (j, first.y+i, 0): for the triangle (0,0,1),(4,0,2),(0,4,3) with
distinct nonzero depths, the weights at pixel (1,1) are (3/4,1/6,1/12),
different from the 2D x,y-only weights (1/2,1/4,1/4), and the interpolated
depth 4/3 differs from the 2D value 7/4; the (1,1) submission of the fill
indeed carries that 3D-weighted depth. -/
theorem C10_depth_interpolation_uses_3d_weights :
    Util.barycentric ⟨1, 1, 0⟩ ⟨0, 0, 1⟩ ⟨4, 0, 2⟩ ⟨0, 4, 3⟩ = ⟨3/4, 1/6, 1/12⟩ ∧
    barycentric2D ⟨1, 1, 0⟩ ⟨0, 0, 1⟩ ⟨4, 0, 2⟩ ⟨0, 4, 3⟩ = ⟨1/2, 1/4, 1/4⟩ ∧
    Util.barycentric ⟨1, 1, 0⟩ ⟨0, 0, 1⟩ ⟨4, 0, 2⟩ ⟨0, 4, 3⟩
      ≠ barycentric2D ⟨1, 1, 0⟩ ⟨0, 0, 1⟩ ⟨4, 0, 2⟩ ⟨0, 4, 3⟩ ∧
    fillDepth ⟨0, 0, 1⟩ ⟨4, 0, 2⟩ ⟨0, 4, 3⟩ ⟨0, 0, 1⟩ ⟨4, 0, 2⟩ ⟨0, 4, 3⟩ 1 1 = 4 / 3 ∧
    (barycentric2D ⟨1, 1, 0⟩ ⟨0, 0, 1⟩ ⟨4, 0, 2⟩ ⟨0, 4, 3⟩).dot ⟨1, 2, 3⟩ = 7 / 4 ∧
    (⟨1, 1, fillDepth ⟨0, 0, 1⟩ ⟨4, 0, 2⟩ ⟨0, 4, 3⟩ ⟨0, 0, 1⟩ ⟨4, 0, 2⟩ ⟨0, 4, 3⟩ 1 1,
      5⟩ : Submission) ∈ fillPolygonSubs ⟨0, 0, 1⟩ ⟨4, 0, 2⟩ ⟨0, 4, 3⟩ 5 := by
  have h3 : Util.barycentric ⟨1, 1, 0⟩ ⟨0, 0, 1⟩ ⟨4, 0, 2⟩ ⟨0, 4, 3⟩
      = ⟨3/4, 1/6, 1/12⟩ := by
    norm_num [Util.barycentric, Vector3.sub, Vector3.dot, Vector3.mk.injEq]
  have h2 : barycentric2D ⟨1, 1, 0⟩ ⟨0, 0, 1⟩ ⟨4, 0, 2⟩ ⟨0, 4, 3⟩
      = ⟨1/2, 1/4, 1/4⟩ := by
    norm_num [barycentric2D, Util.barycentric, Vector3.sub, Vector3.dot,
      Vector3.mk.injEq]
  refine ⟨h3, h2, ?_, ?_, ?_, fillPolygonSubs_c10_mem 5⟩
  · rw [h3, h2]
    intro hcon
    rw [Vector3.mk.injEq] at hcon
    norm_num at hcon
  · norm_num [fillDepth, Util.barycentric, Vector3.sub, Vector3.dot]
  · rw [h2]
    norm_num [Vector3.dot]
